import Mathlib

/-!
Shallow embedding of the dev-dummy-svc user component: the data model
(src/components/user/types.ts), the cache client (src/cache/manager.ts), the
user service (src/components/user/service.ts) and the response pagination
helper (ResponseHandler.paginated).

Modelling conventions:
* The MySQL `users` table is a list of rows plus an auto-increment counter;
  the SQL statements issued by the service are interpreted over it.
  `NOW()` is a clock value `now` carried in the system state.
* The Redis store is an association list from string keys to stored strings.
  A stored string is either a raw string (what `set` stores for a string
  value) or the JSON serialization of a User (what `set` stores for a
  non-string value); the constructor `Stored.json u` stands for the string
  `JSON.stringify(u)`, which is nonempty and decodes back to `u`.
  `JSON.parse` succeeding on a raw stored string that happens to be valid
  JSON is not modelled (the service never stores such values under its keys);
  key expiry (TTL) is not modelled (no claim involves the passage of time).
* Failure of the cache client is modelled by the `connected` flag checked by
  `ensureConnection` in the source; a disconnected cache makes every cache
  operation fail with a typed cache failure, as in the source.
* Each service operation returns its result together with the successor
  system state and a trace of the store/cache operations it performed, so
  that claims about "no additional store read / no write performed" are
  statable.
-/

namespace DevDummySvc

/-! ## Data model (types.ts) -/

/-- `User` as mapped by `UserService.mapRowToUser`. `age` is optional. -/
structure User where
  id : Nat
  email : String
  name : String
  age : Option Nat
  isActive : Bool
  createdAt : Nat
  updatedAt : Nat
deriving DecidableEq, Repr

structure CreateUserInput where
  email : String
  name : String
  age : Option Nat
deriving DecidableEq, Repr

/-- `UpdateUserInput`. `age = some none` models an explicit JSON `null`
(allowed by the Joi schema), which clears the column. -/
structure UpdateUserInput where
  name : Option String
  age : Option (Option Nat)
  isActive : Option Bool
deriving DecidableEq, Repr

structure UserFilters where
  isActive : Option Bool
  ageMin : Option Nat
  ageMax : Option Nat
  search : Option String
deriving DecidableEq, Repr

structure PaginationParams where
  page : Nat
  limit : Nat
deriving DecidableEq, Repr

/-! ## Store (the MySQL `users` table) -/

/-- One row of the `users` table. -/
structure Row where
  id : Nat
  email : String
  name : String
  age : Option Nat
  is_active : Bool
  created_at : Nat
  updated_at : Nat
deriving DecidableEq, Repr

/-- The `users` table: rows in insertion order plus the auto-increment
counter (the id the next INSERT will be assigned). -/
structure Db where
  rows : List Row
  nextId : Nat
deriving DecidableEq, Repr

/-! ## Cache client (cache/manager.ts) -/

/-- The serialized string held in Redis under a key. `raw s` is the string
`s` itself (stored for string values); `json u` is `JSON.stringify(u)`
(stored for a User value). -/
inductive Stored where
  | raw (s : String)
  | json (u : User)
deriving DecidableEq, Repr

/-- The deserialized value `CacheManager.get` hands back: `JSON.parse`
succeeds on a serialized User and yields the User; on the service's raw
string values it throws, so `get` falls back to the raw string. -/
inductive CacheValue where
  | str (s : String)
  | user (u : User)
deriving DecidableEq, Repr

/-- `typeof value === 'string' ? value : JSON.stringify(value)` in `set`. -/
def serialize : CacheValue → Stored
  | .str s => .raw s
  | .user u => .json u

/-- The `JSON.parse`-with-fallback in `get`. -/
def deserialize : Stored → CacheValue
  | .raw s => .str s
  | .json u => .user u

/-- JavaScript truthiness of the stored string, used by the `if (!value)`
guard in `get`: the empty string is falsy, a serialized object is a
nonempty string and always truthy. -/
def storedTruthy : Stored → Bool
  | .raw s => !s.isEmpty
  | .json _ => true

/-- A cache client failure (`CacheError` in the source). `notConnected` is
what `ensureConnection` raises; it is the failure mode of this model. -/
inductive CacheFailure where
  | notConnected
deriving DecidableEq, Repr

structure CacheState where
  connected : Bool
  store : List (String × Stored)
deriving DecidableEq, Repr

/-- First-match association-list lookup (the Redis keyspace). -/
def lookupKV {α : Type} {β : Type} [DecidableEq α] (k : α) : List (α × β) → Option β
  | [] => none
  | kv :: l => if kv.1 = k then some kv.2 else lookupKV k l

/-- Remove a key (Redis `DEL`). -/
def removeKV {α : Type} {β : Type} [DecidableEq α] (k : α) (l : List (α × β)) :
    List (α × β) :=
  l.filter (fun kv => decide (kv.1 ≠ k))

/-- Overwrite a key (Redis `SET`). -/
def insertKV {α : Type} {β : Type} [DecidableEq α] (k : α) (v : β) (l : List (α × β)) :
    List (α × β) :=
  (k, v) :: removeKV k l

namespace CacheManager

/-- `CacheManager.get`: connection check, keyspace lookup, the `if (!value)`
truthiness guard, then deserialization with raw-string fallback. -/
def get (c : CacheState) (k : String) : Except CacheFailure (Option CacheValue) :=
  if c.connected then
    match lookupKV k c.store with
    | none => .ok none
    | some v => if storedTruthy v then .ok (some (deserialize v)) else .ok none
  else .error .notConnected

/-- `CacheManager.set`: connection check, serialize, store. The TTL argument
is accepted but expiry is not modelled. -/
def set (c : CacheState) (k : String) (v : CacheValue) (_ttlSeconds : Nat) :
    Except CacheFailure CacheState :=
  if c.connected then .ok { c with store := insertKV k (serialize v) c.store }
  else .error .notConnected

/-- `CacheManager.del`: connection check, remove, return the removed count. -/
def del (c : CacheState) (k : String) : Except CacheFailure (Nat × CacheState) :=
  if c.connected then
    .ok ((if (lookupKV k c.store).isSome then 1 else 0),
         { c with store := removeKV k c.store })
  else .error .notConnected

end CacheManager

/-! ## System state, service errors, operation traces -/

structure Sys where
  db : Db
  cache : CacheState
  now : Nat
deriving DecidableEq, Repr

/-- Errors the service can surface (utils/errors.ts). `cacheError` exists in
the taxonomy but the service catches every cache failure, so no operation
returns it. -/
inductive SvcErr where
  | notFound (resource : String) (id : Nat)
  | alreadyExists (resource : String) (field : String) (value : String)
  | databaseError (msg : String)
  | cacheError
deriving DecidableEq, Repr

/-- Observable store/cache operations, in the order the service issues them. -/
inductive Ev where
  | dbRead
  | dbWrite
  | cGet (k : String)
  | cSet (k : String)
  | cDel (k : String)
deriving DecidableEq, Repr

/-- Result of a service call: outcome, successor state, operation trace. -/
abbrev Res (α : Type) : Type := Except SvcErr α × Sys × List Ev

/-! ## UserService (components/user/service.ts) -/

namespace UserService

/-- `` `${CACHE_PREFIX}${id}` `` with `CACHE_PREFIX = 'user:'`. -/
def keyOf (id : Nat) : String := "user:" ++ toString id

/-- CACHE_TTL = 300 seconds. -/
def CACHE_TTL : Nat := 300

/-- JavaScript truthiness on an optional number: `x ? x : null` maps both
`undefined` and `0` to null. Used by `input.age || null` in `create` and by
`row.age ? row.age : undefined` in `mapRowToUser`. -/
def jsTruthyNat : Option Nat → Option Nat
  | none => none
  | some 0 => none
  | some (n + 1) => some (n + 1)

/-- `UserService.mapRowToUser`. -/
def mapRowToUser (r : Row) : User :=
  { id := r.id
    email := r.email
    name := r.name
    age := jsTruthyNat r.age
    isActive := r.is_active
    createdAt := r.created_at
    updatedAt := r.updated_at }

/-- `UserService.cacheUser`: best-effort `set` with the standard TTL; a cache
failure is caught and logged, leaving the cache unchanged. -/
def cacheUser (c : CacheState) (u : User) : CacheState :=
  match CacheManager.set c (keyOf u.id) (CacheValue.user u) CACHE_TTL with
  | .ok c₂ => c₂
  | .error _ => c

/-- `UserService.invalidateUserCache`: best-effort `del`; a cache failure is
caught and logged, leaving the cache unchanged. -/
def invalidateUserCache (c : CacheState) (id : Nat) : CacheState :=
  match CacheManager.del c (keyOf id) with
  | .ok r => r.2
  | .error _ => c

/-- `UserService.findByEmail`: replica SELECT by email, first row or null. -/
def findByEmail (st : Sys) (email : String) : Res (Option User) :=
  (.ok ((st.db.rows.find? (fun r => r.email == email)).map mapRowToUser),
   st, [Ev.dbRead])

/-- `UserService.findById`: cache-aside read. Try the cache; on a hit return
without touching the store; on a miss or a caught cache failure read the
replica, and when a row is found populate the cache (best effort) before
returning. A cached value that is not a serialized User cannot be given
back at type `User` in this model and is treated as a fallthrough to the
store; under the well-formedness invariant the service's keys only ever hold
serialized Users, so the case is unreachable. -/
def findById (st : Sys) (id : Nat) : Res (Option User) :=
  let k := keyOf id
  let hit : Option User :=
    match CacheManager.get st.cache k with
    | .ok (some (CacheValue.user u)) => some u
    | _ => none
  match hit with
  | some u => (.ok (some u), st, [Ev.cGet k])
  | none =>
    match st.db.rows.find? (fun r => r.id == id) with
    | none => (.ok none, st, [Ev.cGet k, Ev.dbRead])
    | some r =>
      let u := mapRowToUser r
      (.ok (some u), { st with cache := cacheUser st.cache u },
       [Ev.cGet k, Ev.dbRead, Ev.cSet k])

/-- The row `create` INSERTs: given fields, `is_active = true`,
`created_at = updated_at = NOW()`, id from the auto-increment counter.
`input.age || null` stores null for an absent (or zero) age. -/
def newRowOf (st : Sys) (input : CreateUserInput) : Row :=
  { id := st.db.nextId
    email := input.email
    name := input.name
    age := jsTruthyNat input.age
    is_active := true
    created_at := st.now
    updated_at := st.now }

/-- `UserService.create`: email-uniqueness probe (replica, bypassing the
cache), INSERT on the primary, re-read of the created row by its generated
id, best-effort cache population, and return. -/
def create (st : Sys) (input : CreateUserInput) : Res User :=
  match findByEmail st input.email with
  | (.ok (some _), st₁, tr₁) =>
    (.error (.alreadyExists "User" "email" input.email), st₁, tr₁)
  | (.error e, st₁, tr₁) => (.error e, st₁, tr₁)
  | (.ok none, st₁, tr₁) =>
    let row := newRowOf st₁ input
    let st₂ : Sys :=
      { st₁ with db := { rows := st₁.db.rows ++ [row], nextId := st₁.db.nextId + 1 } }
    match findById st₂ row.id with
    | (.ok none, st₃, tr₃) =>
      (.error (.databaseError "Failed to retrieve created user"), st₃,
       tr₁ ++ [Ev.dbWrite] ++ tr₃)
    | (.error e, st₃, tr₃) => (.error e, st₃, tr₁ ++ [Ev.dbWrite] ++ tr₃)
    | (.ok (some u), st₃, tr₃) =>
      (.ok u, { st₃ with cache := cacheUser st₃.cache u },
       tr₁ ++ [Ev.dbWrite] ++ tr₃ ++ [Ev.cSet (keyOf u.id)])

/-- `updates.length === 0`: no recognized field present in the patch. -/
def emptyPatch (input : UpdateUserInput) : Bool :=
  input.name.isNone && input.age.isNone && input.isActive.isNone

/-- The UPDATE statement's effect on the targeted row: set exactly the
fields present in the patch and refresh `updated_at = NOW()`. -/
def applyPatch (input : UpdateUserInput) (now : Nat) (r : Row) : Row :=
  { r with
    name := input.name.getD r.name
    age := match input.age with
           | none => r.age
           | some a => a
    is_active := input.isActive.getD r.is_active
    updated_at := now }

/-- `UserService.update`: existence check via `findById` (a cache hit
short-circuits it), early return of the existing user on an empty patch,
else UPDATE on the primary, cache invalidation, and a re-read via
`findById` whose cache probe necessarily misses the just-deleted entry. -/
def update (st : Sys) (id : Nat) (input : UpdateUserInput) : Res User :=
  match findById st id with
  | (.ok none, st₁, tr₁) => (.error (.notFound "User" id), st₁, tr₁)
  | (.error e, st₁, tr₁) => (.error e, st₁, tr₁)
  | (.ok (some existing), st₁, tr₁) =>
    if emptyPatch input then (.ok existing, st₁, tr₁)
    else
      let st₂ : Sys :=
        { st₁ with db :=
            { st₁.db with rows :=
                st₁.db.rows.map (fun r => if r.id == id then applyPatch input st₁.now r else r) } }
      let st₃ : Sys := { st₂ with cache := invalidateUserCache st₂.cache id }
      match findById st₃ id with
      | (.ok (some u), st₄, tr₄) =>
        (.ok u, st₄, tr₁ ++ [Ev.dbWrite, Ev.cDel (keyOf id)] ++ tr₄)
      | (.ok none, st₄, tr₄) =>
        (.error (.databaseError "Failed to retrieve updated user"), st₄,
         tr₁ ++ [Ev.dbWrite, Ev.cDel (keyOf id)] ++ tr₄)
      | (.error e, st₄, tr₄) =>
        (.error e, st₄, tr₁ ++ [Ev.dbWrite, Ev.cDel (keyOf id)] ++ tr₄)

/-- `UserService.delete`: existence check via `findById`, DELETE on the
primary, best-effort cache invalidation. -/
def delete (st : Sys) (id : Nat) : Res Unit :=
  match findById st id with
  | (.ok none, st₁, tr₁) => (.error (.notFound "User" id), st₁, tr₁)
  | (.error e, st₁, tr₁) => (.error e, st₁, tr₁)
  | (.ok (some _), st₁, tr₁) =>
    let st₂ : Sys :=
      { st₁ with db := { st₁.db with rows := st₁.db.rows.filter (fun r => !(r.id == id)) } }
    let st₃ : Sys := { st₂ with cache := invalidateUserCache st₂.cache id }
    (.ok (), st₃, tr₁ ++ [Ev.dbWrite, Ev.cDel (keyOf id)])

/-! ### findMany (dynamic predicate, ordering, pagination) -/

/-- Lower-case a character list (the case-insensitive collation used by the
MySQL `LIKE` comparison is modelled by lower-casing both sides). -/
def lower (l : List Char) : List Char := l.map Char.toLower

/-- SQL `LIKE` pattern matching: `%` matches any sequence (the pattern rest
must match some suffix), `_` matches exactly one character, anything else
matches itself. The MySQL `ESCAPE` convention (backslash) is not modelled;
the amended list claim restricts its substring reading to search terms
without `%`, `_` or backslash. Structural recursion on the pattern. -/
def likeMatch : List Char → List Char → Bool
  | [], s => s.isEmpty
  | c :: ps, s =>
    if c = '%' then s.tails.any (fun t => likeMatch ps t)
    else
      match s with
      | [] => false
      | c₂ :: s₂ => (if c = '_' then true else c == c₂) && likeMatch ps s₂

/-- The condition `name LIKE ? OR email LIKE ?` with parameter
`` `%${search}%` `` against one column value, under a case-insensitive
collation. -/
def likeCI (term hay : String) : Bool :=
  likeMatch ('%' :: lower term.toList ++ ['%']) (lower hay.toList)

/-- The WHERE predicate `findMany` builds: conjunction of the conditions for
the filters that are present, in source order. `if (filters.search)` is a
truthiness check, so an empty search string adds no condition. A NULL `age`
satisfies neither `age >= ?` nor `age <= ?` (SQL three-valued comparison). -/
def rowMatches (f : UserFilters) (r : Row) : Bool :=
  (match f.isActive with
   | none => true
   | some b => r.is_active == b) &&
  (match f.ageMin with
   | none => true
   | some m => match r.age with
               | none => false
               | some a => decide (m ≤ a)) &&
  (match f.ageMax with
   | none => true
   | some m => match r.age with
               | none => false
               | some a => decide (a ≤ m)) &&
  (match f.search with
   | none => true
   | some s => if s.isEmpty then true else (likeCI s r.name || likeCI s r.email))

/-- `ORDER BY created_at DESC` (newest first). MySQL leaves the relative
order of equal keys unspecified; the model fixes one admissible order. -/
def sortByCreatedDesc (l : List Row) : List Row :=
  List.insertionSort (fun a b => b.created_at ≤ a.created_at) l

structure FindManyResult where
  users : List User
  total : Nat
deriving DecidableEq, Repr

/-- `UserService.findMany`: COUNT query and page query against the replica
with the same predicate and parameters; `offset = (page - 1) * limit`. -/
def findMany (st : Sys) (f : UserFilters) (p : PaginationParams) : Res FindManyResult :=
  let matching := st.db.rows.filter (rowMatches f)
  let total := matching.length
  let offset := (p.page - 1) * p.limit
  let pageRows := ((sortByCreatedDesc matching).drop offset).take p.limit
  (.ok { users := pageRows.map mapRowToUser, total := total }, st,
   [Ev.dbRead, Ev.dbRead])

end UserService

/-! ## ResponseHandler.paginated (utils/response.ts) -/

structure PaginationMeta where
  page : Nat
  limit : Nat
  total : Nat
  totalPages : Nat
  hasNext : Bool
  hasPrev : Bool
deriving DecidableEq, Repr

namespace ResponseHandler

/-- The pagination object `ResponseHandler.paginated` emits.
`Math.ceil(total / limit)` over positive integers is `(total + limit - 1) / limit`. -/
def paginated (page limit total : Nat) : PaginationMeta :=
  { page := page
    limit := limit
    total := total
    totalPages := (total + limit - 1) / limit
    hasNext := decide (page < (total + limit - 1) / limit)
    hasPrev := decide (1 < page) }

end ResponseHandler

/-! ## Well-formedness of a system state

`Wf` packages what the running system maintains: a positive auto-increment
counter ahead of every stored id, unique row ids, and cache coherence (every
entry the cache holds under a `user:<i>` key is the serialized image of the
store's row `i`, the invariant of §3 of the design document). -/

def Wf (st : Sys) : Prop :=
  1 ≤ st.db.nextId ∧
  (∀ r ∈ st.db.rows, r.id < st.db.nextId) ∧
  st.db.rows.Pairwise (fun a b => a.id ≠ b.id) ∧
  (∀ kv ∈ st.cache.store, ∀ i : Nat, kv.1 = UserService.keyOf i →
    ∃ r ∈ st.db.rows, r.id = i ∧ kv.2 = Stored.json (UserService.mapRowToUser r))

/-! ## Spec-side definitions

The following definitions follow the specification's words, not the code;
they exist so that the code's behavior can be compared against them. -/

/-- Spec-side: a `CreateUserInput` satisfying the documented validation
rules (name 2–100 characters, age 1–150 when present; the email-format rule
is not needed by any claim and is not modelled). -/
def ValidCreateInput (input : CreateUserInput) : Prop :=
  2 ≤ input.name.length ∧ input.name.length ≤ 100 ∧
  (∀ a, input.age = some a → 1 ≤ a ∧ a ≤ 150)

/-- Spec-side: `n` is an initial segment of `h`. -/
def leadsWith : List Char → List Char → Bool
  | [], _ => true
  | _ :: _, [] => false
  | a :: n, b :: h => a == b && leadsWith n h

/-- Spec-side: `n` occurs contiguously somewhere in `h`. -/
def occursIn (n : List Char) : List Char → Bool
  | [] => leadsWith n []
  | c :: h => leadsWith n (c :: h) || occursIn n h

/-- Spec-side: case-insensitive substring test, the specification's reading
of the `search` filter. -/
def specSubstrCI (needle hay : String) : Bool :=
  occursIn (UserService.lower needle.toList) (UserService.lower hay.toList)

/-- The search term contains no SQL `LIKE` metacharacter (`%`, `_`) and no
escape character. -/
def noWild (s : String) : Prop :=
  ∀ c ∈ s.toList, c ≠ '%' ∧ c ≠ '_' ∧ c ≠ '\\'

/-! ## Ordering instances for `ORDER BY created_at DESC` -/

instance : IsTotal Row (fun a b => b.created_at ≤ a.created_at) :=
  ⟨fun a b => (Nat.le_total b.created_at a.created_at)⟩

instance : IsTrans Row (fun a b => b.created_at ≤ a.created_at) :=
  ⟨fun _ _ _ hab hbc => le_trans hbc hab⟩

/-! ## Concrete fixtures (used by witnesses and counterexamples) -/

/-- Fresh system: empty table, auto-increment at 1, connected empty cache. -/
def sysEmpty : Sys := ⟨⟨[], 1⟩, ⟨true, []⟩, 0⟩

def inpA : CreateUserInput := ⟨"a@x.com", "ab", none⟩

def rowA : Row := ⟨1, "a@x.com", "ab", none, true, 0, 0⟩

/-- One stored user, connected empty cache, clock at 5. -/
def sysOne : Sys := ⟨⟨[rowA], 2⟩, ⟨true, []⟩, 5⟩

def rowB : Row := ⟨1, "b@x.com", "Bob", some 30, true, 3, 3⟩

/-- One stored user with an age, connected empty cache. -/
def sysB : Sys := ⟨⟨[rowB], 2⟩, ⟨true, []⟩, 9⟩

/-- One stored user, cache disconnected. -/
def sysDown : Sys := ⟨⟨[rowA], 2⟩, ⟨false, []⟩, 5⟩

/-! ## Association-list lemmas -/

theorem lookupKV_insert_self {β : Type} (k : String) (v : β) (l : List (String × β)) :
    lookupKV k (insertKV k v l) = some v := by
  simp [insertKV, lookupKV]

theorem lookupKV_remove_self {β : Type} (k : String) (l : List (String × β)) :
    lookupKV k (removeKV k l) = none := by
  induction l with
  | nil => rfl
  | cons kv l ih =>
    by_cases h : kv.1 = k
    · simpa [removeKV, h] using ih
    · simpa [removeKV, lookupKV, h] using ih

theorem lookupKV_mem {β : Type} {k : String} {v : β} {l : List (String × β)}
    (h : lookupKV k l = some v) : (k, v) ∈ l := by
  induction l with
  | nil => simp [lookupKV] at h
  | cons kv l ih =>
    by_cases hk : kv.1 = k
    · simp [lookupKV, hk] at h
      subst hk h
      exact List.mem_cons_self _ _
    · simp [lookupKV, hk] at h
      exact List.mem_cons_of_mem _ (ih h)

/-! ## List lemmas about `find?` used to interpret the SQL statements -/

/-- In a table with pairwise-distinct ids, `WHERE id = ?` finds exactly the
row with that id. -/
theorem find?_of_unique_id {l : List Row} {r : Row} {id : Nat}
    (hu : l.Pairwise (fun a b => a.id ≠ b.id)) (hr : r ∈ l) (hid : r.id = id) :
    l.find? (fun x => x.id == id) = some r := by
  induction l with
  | nil => cases hr
  | cons a l ih =>
    rcases List.mem_cons.mp hr with h | h
    · subst h
      have hp : (r.id == id) = true := by simp [hid]
      rw [List.find?_cons, hp]
    · have h1 : a.id ≠ r.id := (List.pairwise_cons.mp hu).1 r h
      have ha : (a.id == id) = false := by
        simp only [beq_eq_false_iff_ne, ne_eq]
        rw [← hid]
        exact h1
      rw [List.find?_cons, ha]
      exact ih (List.pairwise_cons.mp hu).2 h

/-- Two members of a table with pairwise-distinct ids that share an id are
the same row. -/
theorem row_eq_of_mem_unique {l : List Row} {a b : Row}
    (hu : l.Pairwise (fun x y => x.id ≠ y.id)) (ha : a ∈ l) (hb : b ∈ l)
    (h : a.id = b.id) : a = b := by
  induction l with
  | nil => cases ha
  | cons c l ih =>
    obtain ⟨hc, hl⟩ := List.pairwise_cons.mp hu
    rcases List.mem_cons.mp ha with ha1 | ha1 <;> rcases List.mem_cons.mp hb with hb1 | hb1
    · rw [ha1, hb1]
    · exact absurd h (ha1 ▸ hc b hb1)
    · exact absurd h.symm (hb1 ▸ hc a ha1)
    · exact ih hl ha1 hb1

/-! ## Cache-helper lemmas -/

open UserService

theorem connected_cacheUser (c : CacheState) (u : User) :
    (cacheUser c u).connected = c.connected := by
  cases hc : c.connected <;> simp [cacheUser, CacheManager.set, hc]

theorem connected_invalidate (c : CacheState) (id : Nat) :
    (invalidateUserCache c id).connected = c.connected := by
  cases hc : c.connected <;> simp [invalidateUserCache, CacheManager.del, hc]

theorem cacheUser_connected_eq {c : CacheState} (u : User) (h : c.connected = true) :
    cacheUser c u = { c with store := insertKV (keyOf u.id) (Stored.json u) c.store } := by
  simp [cacheUser, CacheManager.set, h, serialize]

theorem cacheUser_down {c : CacheState} (u : User) (h : c.connected = false) :
    cacheUser c u = c := by
  simp [cacheUser, CacheManager.set, h]

theorem invalidate_connected_eq {c : CacheState} (id : Nat) (h : c.connected = true) :
    invalidateUserCache c id = { c with store := removeKV (keyOf id) c.store } := by
  simp [invalidateUserCache, CacheManager.del, h]

theorem invalidate_down {c : CacheState} (id : Nat) (h : c.connected = false) :
    invalidateUserCache c id = c := by
  simp [invalidateUserCache, CacheManager.del, h]

/-! ## `findById` characterization lemmas -/

/-- Under `Wf`, `findById` on an existing row returns exactly that row's
User (from the cache on a hit, from the store on a miss), performs no store
write, touches only the cache component of the state, and preserves cache
connectivity. -/
theorem findById_found {st : Sys} {r : Row} {id : Nat}
    (hwf : Wf st) (hr : r ∈ st.db.rows) (hid : r.id = id) :
    ∃ c tr, findById st id = (.ok (some (mapRowToUser r)), { st with cache := c }, tr) ∧
      c.connected = st.cache.connected ∧ Ev.dbWrite ∉ tr := by
  obtain ⟨hpos, hlt, huniq, hcoh⟩ := hwf
  by_cases hc : st.cache.connected = true
  · cases hlk : lookupKV (keyOf id) st.cache.store with
    | some v =>
      obtain ⟨r₂, hr₂, hrid₂, hv⟩ := hcoh _ (lookupKV_mem hlk) id rfl
      have hv₂ : v = Stored.json (mapRowToUser r₂) := hv
      subst hv₂
      have hrr : r₂ = r := row_eq_of_mem_unique huniq hr₂ hr (by rw [hrid₂, hid])
      subst hrr
      refine ⟨st.cache, [Ev.cGet (keyOf id)], ?_, rfl, by simp⟩
      simp [findById, CacheManager.get, hc, hlk, storedTruthy, deserialize]
    | none =>
      have hf : st.db.rows.find? (fun x => x.id == id) = some r :=
        find?_of_unique_id huniq hr hid
      refine ⟨cacheUser st.cache (mapRowToUser r),
        [Ev.cGet (keyOf id), Ev.dbRead, Ev.cSet (keyOf id)], ?_, connected_cacheUser .., by simp⟩
      simp [findById, CacheManager.get, hc, hlk, hf]
  · have hc₂ : st.cache.connected = false := by simpa using hc
    have hf : st.db.rows.find? (fun x => x.id == id) = some r :=
      find?_of_unique_id huniq hr hid
    refine ⟨cacheUser st.cache (mapRowToUser r),
      [Ev.cGet (keyOf id), Ev.dbRead, Ev.cSet (keyOf id)], ?_, connected_cacheUser .., by simp⟩
    simp [findById, CacheManager.get, hc₂, hf]

/-- Under `Wf`, `findById` on an id with no stored row returns "not found"
(`ok none`, not an error), leaves the whole state untouched, and performs
exactly a cache probe and a store read. -/
theorem findById_none {st : Sys} {id : Nat}
    (hwf : Wf st) (h : ∀ r ∈ st.db.rows, r.id ≠ id) :
    findById st id = (.ok none, st, [Ev.cGet (keyOf id), Ev.dbRead]) := by
  obtain ⟨hpos, hlt, huniq, hcoh⟩ := hwf
  have hf : st.db.rows.find? (fun x => x.id == id) = none := by
    rw [List.find?_eq_none]
    intro x hx
    simpa using h x hx
  by_cases hc : st.cache.connected = true
  · cases hlk : lookupKV (keyOf id) st.cache.store with
    | some v =>
      obtain ⟨r₂, hr₂, hrid₂, hv⟩ := hcoh _ (lookupKV_mem hlk) id rfl
      exact absurd hrid₂ (h r₂ hr₂)
    | none =>
      simp [findById, CacheManager.get, hc, hlk, hf]
  · have hc₂ : st.cache.connected = false := by simpa using hc
    simp [findById, CacheManager.get, hc₂, hf]

/-- When the cache probe cannot hit — the key is absent or the cache is
down — `findById` reads the store: whatever row `WHERE id = ?` finds is
mapped, cached best-effort, and returned. -/
theorem findById_miss {st : Sys} {id : Nat} {r : Row}
    (hlk : lookupKV (keyOf id) st.cache.store = none ∨ st.cache.connected = false)
    (hf : st.db.rows.find? (fun x => x.id == id) = some r) :
    findById st id = (.ok (some (mapRowToUser r)),
      { st with cache := cacheUser st.cache (mapRowToUser r) },
      [Ev.cGet (keyOf id), Ev.dbRead, Ev.cSet (keyOf id)]) := by
  rcases hlk with hlk | hlk
  · by_cases hc : st.cache.connected = true
    · simp [findById, CacheManager.get, hc, hlk, hf]
    · have hc₂ : st.cache.connected = false := by simpa using hc
      simp [findById, CacheManager.get, hc₂, hf]
  · simp [findById, CacheManager.get, hlk, hf]

/-! ## Scenario lemmas for `create` and `update` -/

theorem newRowOf_id (st : Sys) (input : CreateUserInput) :
    (newRowOf st input).id = st.db.nextId := rfl

theorem mapRowToUser_id (r : Row) : (mapRowToUser r).id = r.id := rfl

theorem find?_map_stable {α : Type} {l : List α} {p : α → Bool} {g : α → α}
    (hg : ∀ x, p (g x) = p x) : (l.map g).find? p = (l.find? p).map g := by
  induction l with
  | nil => rfl
  | cons a l ih =>
    cases hp : p a with
    | true => simp [List.find?_cons, hg, hp]
    | false => simp [List.find?_cons, hg, hp, ih]

/-- A `create` on a fresh email runs the full happy path: probe (one store
read), INSERT, cache probe for the new id (a guaranteed miss under `Wf`),
store re-read of the inserted row, and two cache populations. -/
theorem create_fresh_spec {st : Sys} {input : CreateUserInput}
    (hwf : Wf st) (hfresh : ∀ r ∈ st.db.rows, r.email ≠ input.email) :
    UserService.create st input =
      (.ok (mapRowToUser (newRowOf st input)),
       { db := { rows := st.db.rows ++ [newRowOf st input], nextId := st.db.nextId + 1 },
         cache := cacheUser (cacheUser st.cache (mapRowToUser (newRowOf st input)))
                    (mapRowToUser (newRowOf st input)),
         now := st.now },
       [Ev.dbRead, Ev.dbWrite, Ev.cGet (keyOf st.db.nextId), Ev.dbRead,
        Ev.cSet (keyOf st.db.nextId), Ev.cSet (keyOf st.db.nextId)]) := by
  obtain ⟨hpos, hlt, huniq, hcoh⟩ := hwf
  have hfe : st.db.rows.find? (fun r => r.email == input.email) = none := by
    rw [List.find?_eq_none]
    intro x hx
    simpa using hfresh x hx
  have hfA : (st.db.rows ++ [newRowOf st input]).find? (fun x => x.id == st.db.nextId)
      = some (newRowOf st input) := by
    rw [List.find?_append]
    have h1 : st.db.rows.find? (fun x => x.id == st.db.nextId) = none := by
      rw [List.find?_eq_none]
      intro x hx
      have := hlt x hx
      simp
      omega
    rw [h1]
    simp [newRowOf]
  cases hlk : lookupKV (keyOf st.db.nextId) st.cache.store with
  | some v =>
    obtain ⟨r₂, hr₂, hrid₂, hv⟩ := hcoh _ (lookupKV_mem hlk) st.db.nextId rfl
    exact absurd (hrid₂ ▸ hlt r₂ hr₂) (lt_irrefl _)
  | none =>
    have hfb := @findById_miss
      { db := { rows := st.db.rows ++ [newRowOf st input], nextId := st.db.nextId + 1 },
        cache := st.cache, now := st.now }
      st.db.nextId (newRowOf st input) (Or.inl hlk) hfA
    simp [UserService.create, findByEmail, hfe, newRowOf_id, hfb, mapRowToUser_id]

/-- A nonempty `update` on an existing row runs the full write path:
existence check via `findById` (no store write), UPDATE of exactly the
target row, cache invalidation, and a store re-read (whose cache probe
cannot hit the just-deleted key) that re-populates the cache. -/
theorem update_found_spec {st : Sys} {id : Nat} {r : Row} {input : UpdateUserInput}
    (hwf : Wf st) (hr : r ∈ st.db.rows) (hid : r.id = id)
    (hne : emptyPatch input = false) :
    ∃ c₁ tr₁, c₁.connected = st.cache.connected ∧ Ev.dbWrite ∉ tr₁ ∧
      UserService.update st id input =
        (.ok (mapRowToUser (applyPatch input st.now r)),
         { db := { rows := st.db.rows.map
                     (fun x => if x.id == id then applyPatch input st.now x else x),
                   nextId := st.db.nextId },
           cache := cacheUser (invalidateUserCache c₁ id)
                      (mapRowToUser (applyPatch input st.now r)),
           now := st.now },
         tr₁ ++ [Ev.dbWrite, Ev.cDel (keyOf id), Ev.cGet (keyOf id), Ev.dbRead,
                 Ev.cSet (keyOf id)]) := by
  obtain ⟨hpos, hlt, huniq, hcoh⟩ := hwf
  obtain ⟨c₁, tr₁, hfb, hcc, hnw⟩ := findById_found ⟨hpos, hlt, huniq, hcoh⟩ hr hid
  refine ⟨c₁, tr₁, hcc, hnw, ?_⟩
  have hpres : ∀ x : Row,
      ((if x.id == id then applyPatch input st.now x else x).id == id) = (x.id == id) := by
    intro x
    by_cases hx : (x.id == id) = true
    · simp [hx, applyPatch]
    · simp [hx]
  have hfm : (st.db.rows.map (fun x => if x.id == id then applyPatch input st.now x else x)).find?
      (fun x => x.id == id) = some (applyPatch input st.now r) := by
    rw [find?_map_stable hpres, find?_of_unique_id huniq hr hid]
    simp [hid]
  have hmiss : lookupKV (keyOf id) (invalidateUserCache c₁ id).store = none ∨
      (invalidateUserCache c₁ id).connected = false := by
    cases hc : c₁.connected with
    | true =>
      rw [invalidate_connected_eq id hc]
      exact Or.inl (lookupKV_remove_self ..)
    | false =>
      exact Or.inr ((connected_invalidate ..).trans hc)
  have hre := @findById_miss
    { db := { rows := st.db.rows.map
                (fun x => if x.id == id then applyPatch input st.now x else x),
              nextId := st.db.nextId },
      cache := invalidateUserCache c₁ id, now := st.now }
    id (applyPatch input st.now r) hmiss hfm
  unfold UserService.update
  rw [hfb]
  dsimp only
  rw [hne]
  simp only [Bool.false_eq_true, if_false]
  rw [hre]
  simp

/-! ## `LIKE` versus substring -/

theorem toLower_wild_free {c : Char} (h₁ : c ≠ '%') (h₂ : c ≠ '_') :
    Char.toLower c ≠ '%' ∧ Char.toLower c ≠ '_' := by
  by_cases hup : c.toNat ≥ 65 ∧ c.toNat ≤ 90
  · have hl : Char.toLower c = Char.ofNat (c.toNat + 32) := by
      simp [Char.toLower, hup]
    rw [hl]
    obtain ⟨h65, h90⟩ := hup
    revert h65 h90
    generalize c.toNat = m
    intro h65 h90
    interval_cases m <;> exact ⟨by decide, by decide⟩
  · have hl : Char.toLower c = c := by
      simp [Char.toLower, hup]
    rw [hl]
    exact ⟨h₁, h₂⟩

theorem likeMatch_pct (ps s : List Char) :
    UserService.likeMatch ('%' :: ps) s = s.tails.any (fun t => UserService.likeMatch ps t) := by
  simp [UserService.likeMatch]

/-- A wildcard-free pattern followed by a trailing `%` matches a string
exactly when the pattern is an initial segment of it (forward direction). -/
theorem leadsWith_of_likeMatch_lit {t : List Char}
    (hw : ∀ c ∈ t, c ≠ '%' ∧ c ≠ '_') :
    ∀ {h : List Char}, UserService.likeMatch (t ++ ['%']) h = true → leadsWith t h = true := by
  induction t with
  | nil => intro h _; rfl
  | cons c t ih =>
    intro h hm
    obtain ⟨hc1, hc2⟩ := hw c (List.mem_cons_self ..)
    cases h with
    | nil => simp [UserService.likeMatch, hc1] at hm
    | cons c₂ s₂ =>
      have hm₂ : ((if c = '_' then true else c == c₂) &&
          UserService.likeMatch (t ++ ['%']) s₂) = true := by
        simpa [UserService.likeMatch, hc1] using hm
      rw [if_neg hc2] at hm₂
      have hm₃ : c = c₂ ∧ UserService.likeMatch (t ++ ['%']) s₂ = true := by
        simpa using hm₂
      obtain ⟨he, hrest⟩ := hm₃
      subst he
      have ht := ih (fun x hx => hw x (List.mem_cons_of_mem _ hx)) hrest
      simp [leadsWith, ht]

theorem occursIn_of_suffix_leadsWith {t h₂ h : List Char}
    (hs : List.IsSuffix h₂ h) (hl : leadsWith t h₂ = true) : occursIn t h = true := by
  obtain ⟨h₁, rfl⟩ := hs
  induction h₁ with
  | nil => cases h₂ <;> simp_all [occursIn]
  | cons a h₁ ih => simp [occursIn, ih]

/-- The implemented search condition (`LIKE '%term%'` under a
case-insensitive collation) implies the spec-side case-insensitive substring
condition whenever the term is free of wildcard characters. -/
theorem specSubstrCI_of_likeCI {s hay : String} (hw : noWild s)
    (hm : UserService.likeCI s hay = true) : specSubstrCI s hay = true := by
  unfold UserService.likeCI at hm
  have hm₁ : UserService.likeMatch ('%' :: (UserService.lower s.toList ++ ['%']))
      (UserService.lower hay.toList) = true := by
    simpa using hm
  rw [likeMatch_pct] at hm₁
  obtain ⟨t, ht, hmt⟩ := List.any_eq_true.mp hm₁
  have hw₂ : ∀ c ∈ UserService.lower s.toList, c ≠ '%' ∧ c ≠ '_' := by
    intro c hc
    obtain ⟨c₀, hc₀, rfl⟩ := List.mem_map.mp hc
    obtain ⟨w1, w2, _⟩ := hw c₀ hc₀
    exact toLower_wild_free w1 w2
  exact occursIn_of_suffix_leadsWith ((List.mem_tails ..).mp ht)
    (leadsWith_of_likeMatch_lit hw₂ hmt)

theorem sortByCreatedDesc_sorted (l : List Row) :
    List.Pairwise (fun a b => b.created_at ≤ a.created_at) (UserService.sortByCreatedDesc l) :=
  List.sorted_insertionSort _ l

theorem sortByCreatedDesc_perm (l : List Row) :
    (UserService.sortByCreatedDesc l).Perm l :=
  List.perm_insertionSort _ l

/-- Ceiling-division characterization of `totalPages`: it is the unique `q`
with `total ≤ q * limit < total + limit`, i.e. `⌈total / limit⌉`. -/
theorem totalPages_is_ceil (total limit : Nat) (h : 1 ≤ limit) :
    total ≤ ((total + limit - 1) / limit) * limit ∧
    ((total + limit - 1) / limit) * limit < total + limit := by
  have hdm := Nat.div_add_mod (total + limit - 1) limit
  have hml : (total + limit - 1) % limit < limit := Nat.mod_lt _ (by omega)
  constructor
  · rw [Nat.mul_comm]
    omega
  · rw [Nat.mul_comm]
    omega

/-! ## Further helper lemmas -/

theorem applyPatch_id (input : UpdateUserInput) (now : Nat) (r : Row) :
    (applyPatch input now r).id = r.id := rfl

/-- A connected cache that holds the serialized image of `u` under `u`'s key
makes `findById u.id` a pure hit: the user is returned unchanged, the state
is untouched, and the store is not read. -/
theorem findById_cache_has {st : Sys} {u : User}
    (hc : st.cache.connected = true)
    (hl : lookupKV (keyOf u.id) st.cache.store = some (Stored.json u)) :
    findById st u.id = (.ok (some u), st, [Ev.cGet (keyOf u.id)]) := by
  simp [findById, CacheManager.get, hc, hl, storedTruthy, deserialize]

/-- `create` on an email the probe finds stops before the INSERT. -/
theorem create_duplicate_spec {st : Sys} {input : CreateUserInput} {r₀ : Row}
    (hf : st.db.rows.find? (fun x => x.email == input.email) = some r₀) :
    UserService.create st input =
      (.error (.alreadyExists "User" "email" input.email), st, [Ev.dbRead]) := by
  simp [UserService.create, findByEmail, hf]

/-- With the cache down, `findById` is the pure store lookup: every cache
call fails, is caught, and the state is returned unchanged. -/
theorem findById_down_full {st : Sys} {id : Nat} (hc : st.cache.connected = false) :
    findById st id =
      (.ok ((st.db.rows.find? (fun x => x.id == id)).map mapRowToUser), st,
       match st.db.rows.find? (fun x => x.id == id) with
       | none => [Ev.cGet (keyOf id), Ev.dbRead]
       | some _ => [Ev.cGet (keyOf id), Ev.dbRead, Ev.cSet (keyOf id)]) := by
  cases hf : st.db.rows.find? (fun x => x.id == id) with
  | none => simp [findById, CacheManager.get, hc, hf]
  | some r =>
    have hm := @findById_miss st id r (Or.inr hc) hf
    rw [hm, cacheUser_down _ hc]
    simp

/-- With a connected empty cache, `findById` misses and reads the store;
when a row is found it is cached under its key. -/
theorem findById_empty_full {st : Sys} {id : Nat} (hc : st.cache = ⟨true, []⟩) :
    findById st id =
      (.ok ((st.db.rows.find? (fun x => x.id == id)).map mapRowToUser),
       match st.db.rows.find? (fun x => x.id == id) with
       | none => st
       | some r => { st with cache :=
           ⟨true, [(keyOf r.id, Stored.json (mapRowToUser r))]⟩ },
       match st.db.rows.find? (fun x => x.id == id) with
       | none => [Ev.cGet (keyOf id), Ev.dbRead]
       | some _ => [Ev.cGet (keyOf id), Ev.dbRead, Ev.cSet (keyOf id)]) := by
  have hlk : lookupKV (keyOf id) st.cache.store = none := by
    rw [hc]
    rfl
  cases hf : st.db.rows.find? (fun x => x.id == id) with
  | none =>
    have hcc : st.cache.connected = true := by rw [hc]
    simp [findById, CacheManager.get, hcc, hlk, hf]
  | some r =>
    have hm := @findById_miss st id r (Or.inl hlk) hf
    rw [hm, hc]
    simp [cacheUser, CacheManager.set, insertKV, removeKV, serialize, mapRowToUser_id]

theorem wf_sysEmpty : Wf sysEmpty :=
  ⟨by decide, by simp [sysEmpty], by simp [sysEmpty], by simp [sysEmpty]⟩

theorem wf_sysOne : Wf sysOne :=
  ⟨by decide, by simp [sysOne, rowA], by simp [sysOne], by simp [sysOne]⟩

theorem wf_sysB : Wf sysB :=
  ⟨by decide, by simp [sysB, rowB], by simp [sysB], by simp [sysB]⟩

/-! ## Claims -/

/-- C3: for every valid `CreateUserInput` whose email is not already present
in the store, `create` returns a User with a positive id, the given email,
name and age, `isActive = true`, and `createdAt = updatedAt`. -/
theorem claim3_create_valid_fresh (st : Sys) (input : CreateUserInput)
    (hwf : Wf st) (hval : ValidCreateInput input)
    (hfresh : ∀ r ∈ st.db.rows, r.email ≠ input.email) :
    ∃ u st₂ tr, UserService.create st input = (.ok u, st₂, tr) ∧
      1 ≤ u.id ∧ u.email = input.email ∧ u.name = input.name ∧ u.age = input.age ∧
      u.isActive = true ∧ u.createdAt = u.updatedAt := by
  refine ⟨_, _, _, create_fresh_spec hwf hfresh, hwf.1, rfl, rfl, ?_, rfl, rfl⟩
  obtain ⟨-, -, h3⟩ := hval
  cases ha : input.age with
  | none => simp [mapRowToUser, newRowOf, jsTruthyNat, ha]
  | some a =>
    obtain ⟨ha1, -⟩ := h3 a ha
    cases a with
    | zero => exact absurd ha1 (by omega)
    | succ n => simp [mapRowToUser, newRowOf, jsTruthyNat, ha]

theorem claim3_witness :
    ∃ u st₂ tr, UserService.create sysEmpty inpA = (.ok u, st₂, tr) ∧
      1 ≤ u.id ∧ u.email = inpA.email ∧ u.name = inpA.name ∧ u.age = inpA.age ∧
      u.isActive = true ∧ u.createdAt = u.updatedAt :=
  claim3_create_valid_fresh sysEmpty inpA wf_sysEmpty
    ⟨by decide, by decide, by simp [inpA]⟩ (by simp [sysEmpty])

/-- C4: `create` on an email already present fails with `AlreadyExists` and
performs no insert — the state (in particular the set of stored rows) is
unchanged and the trace holds a single store read and no write. -/
theorem claim4_create_duplicate_email (st : Sys) (input : CreateUserInput) (r : Row)
    (hr : r ∈ st.db.rows) (he : r.email = input.email) :
    UserService.create st input =
      (.error (.alreadyExists "User" "email" input.email), st, [Ev.dbRead]) := by
  cases hf : st.db.rows.find? (fun x => x.email == input.email) with
  | none =>
    have := List.find?_eq_none.mp hf r hr
    simp [he] at this
  | some r₀ => exact create_duplicate_spec hf

theorem claim4_witness :
    UserService.create sysOne inpA =
      (.error (.alreadyExists "User" "email" inpA.email), sysOne, [Ev.dbRead]) :=
  claim4_create_duplicate_email sysOne inpA rowA (by simp [sysOne]) rfl

/-- C5: `update(id, {name})` on an existing row changes only `name` and
`updated_at` — age, email, isActive and createdAt of both the returned user
and the stored row are untouched — and `update(id, {})` with no recognized
field returns the existing user unchanged and performs no store write. -/
theorem claim5_update_frame (st : Sys) (id : Nat) (r : Row)
    (hwf : Wf st) (hr : r ∈ st.db.rows) (hid : r.id = id) :
    (∀ nm : String, ∃ st₂ tr,
      UserService.update st id ⟨some nm, none, none⟩ =
        (.ok (mapRowToUser { r with name := nm, updated_at := st.now }), st₂, tr) ∧
      st₂.db.rows = st.db.rows.map
        (fun x => if x.id == id then { x with name := nm, updated_at := st.now } else x) ∧
      (mapRowToUser { r with name := nm, updated_at := st.now }).email = (mapRowToUser r).email ∧
      (mapRowToUser { r with name := nm, updated_at := st.now }).age = (mapRowToUser r).age ∧
      (mapRowToUser { r with name := nm, updated_at := st.now }).isActive
        = (mapRowToUser r).isActive ∧
      (mapRowToUser { r with name := nm, updated_at := st.now }).createdAt
        = (mapRowToUser r).createdAt ∧
      (mapRowToUser { r with name := nm, updated_at := st.now }).name = nm ∧
      (mapRowToUser { r with name := nm, updated_at := st.now }).updatedAt = st.now) ∧
    (∃ st₃ tr₃,
      UserService.update st id ⟨none, none, none⟩ = (.ok (mapRowToUser r), st₃, tr₃) ∧
      st₃.db = st.db ∧ Ev.dbWrite ∉ tr₃) := by
  constructor
  · intro nm
    obtain ⟨c₁, tr₁, hcc, hnw, hspec⟩ :=
      @update_found_spec st id r ⟨some nm, none, none⟩ hwf hr hid rfl
    exact ⟨_, _, hspec, rfl, rfl, rfl, rfl, rfl, rfl, rfl⟩
  · obtain ⟨c₁, tr₁, hfb, hcc, hnw⟩ := findById_found hwf hr hid
    refine ⟨{ st with cache := c₁ }, tr₁, ?_, rfl, hnw⟩
    simp [UserService.update, hfb, emptyPatch]

theorem claim5_witness :
    (∀ nm : String, ∃ st₂ tr,
      UserService.update sysOne 1 ⟨some nm, none, none⟩ =
        (.ok (mapRowToUser { rowA with name := nm, updated_at := sysOne.now }), st₂, tr) ∧
      st₂.db.rows = sysOne.db.rows.map
        (fun x => if x.id == 1 then { x with name := nm, updated_at := sysOne.now } else x) ∧
      (mapRowToUser { rowA with name := nm, updated_at := sysOne.now }).email
        = (mapRowToUser rowA).email ∧
      (mapRowToUser { rowA with name := nm, updated_at := sysOne.now }).age
        = (mapRowToUser rowA).age ∧
      (mapRowToUser { rowA with name := nm, updated_at := sysOne.now }).isActive
        = (mapRowToUser rowA).isActive ∧
      (mapRowToUser { rowA with name := nm, updated_at := sysOne.now }).createdAt
        = (mapRowToUser rowA).createdAt ∧
      (mapRowToUser { rowA with name := nm, updated_at := sysOne.now }).name = nm ∧
      (mapRowToUser { rowA with name := nm, updated_at := sysOne.now }).updatedAt
        = sysOne.now) ∧
    (∃ st₃ tr₃,
      UserService.update sysOne 1 ⟨none, none, none⟩ = (.ok (mapRowToUser rowA), st₃, tr₃) ∧
      st₃.db = sysOne.db ∧ Ev.dbWrite ∉ tr₃) :=
  claim5_update_frame sysOne 1 rowA wf_sysOne (by simp [sysOne]) rfl

/-- C6: `update` and `delete` on an id with no stored row fail with
`NotFound` and mutate nothing: the state is returned exactly as it was and
the trace holds no store write. -/
theorem claim6_not_found_no_mutation (st : Sys) (id : Nat) (input : UpdateUserInput)
    (hwf : Wf st) (hnone : ∀ r ∈ st.db.rows, r.id ≠ id) :
    UserService.update st id input =
      (.error (.notFound "User" id), st, [Ev.cGet (keyOf id), Ev.dbRead]) ∧
    UserService.delete st id =
      (.error (.notFound "User" id), st, [Ev.cGet (keyOf id), Ev.dbRead]) := by
  have hfb := findById_none hwf hnone
  exact ⟨by simp [UserService.update, hfb], by simp [UserService.delete, hfb]⟩

theorem claim6_witness :
    UserService.update sysOne 999999 ⟨some "cd", none, none⟩ =
      (.error (.notFound "User" 999999), sysOne, [Ev.cGet (keyOf 999999), Ev.dbRead]) ∧
    UserService.delete sysOne 999999 =
      (.error (.notFound "User" 999999), sysOne, [Ev.cGet (keyOf 999999), Ev.dbRead]) :=
  claim6_not_found_no_mutation sysOne 999999 ⟨some "cd", none, none⟩ wf_sysOne
    (by simp [sysOne, rowA])

/-- C2: after the UPDATE write succeeds, the service deletes the cache entry
`user:<id>` and then re-reads the returned row from the store: the trace
after the single write is exactly cache delete, cache probe, store read,
cache set; the cache probe between the delete and the store read cannot hit
(the entry was just removed — `lookupKV` on the invalidated cache is
`none`), and the returned user is the image of the row now in the store. -/
theorem claim2_update_invalidates_then_rereads (st : Sys) (id : Nat) (r : Row)
    (input : UpdateUserInput)
    (hwf : Wf st) (hconn : st.cache.connected = true) (hr : r ∈ st.db.rows)
    (hid : r.id = id) (hne : emptyPatch input = false) :
    ∃ c₁ tr₁, Ev.dbWrite ∉ tr₁ ∧ c₁.connected = true ∧
      UserService.update st id input =
        (.ok (mapRowToUser (applyPatch input st.now r)),
         { db := { rows := st.db.rows.map
                     (fun x => if x.id == id then applyPatch input st.now x else x),
                   nextId := st.db.nextId },
           cache := cacheUser (invalidateUserCache c₁ id)
                      (mapRowToUser (applyPatch input st.now r)),
           now := st.now },
         tr₁ ++ [Ev.dbWrite, Ev.cDel (keyOf id), Ev.cGet (keyOf id), Ev.dbRead,
                 Ev.cSet (keyOf id)]) ∧
      lookupKV (keyOf id) (invalidateUserCache c₁ id).store = none := by
  obtain ⟨c₁, tr₁, hcc, hnw, hspec⟩ := update_found_spec hwf hr hid hne
  have hc₁ : c₁.connected = true := hcc.trans hconn
  refine ⟨c₁, tr₁, hnw, hc₁, hspec, ?_⟩
  rw [invalidate_connected_eq id hc₁]
  exact lookupKV_remove_self ..

theorem claim2_witness :
    ∃ c₁ tr₁, Ev.dbWrite ∉ tr₁ ∧ c₁.connected = true ∧
      UserService.update sysOne 1 ⟨some "cd", none, none⟩ =
        (.ok (mapRowToUser (applyPatch ⟨some "cd", none, none⟩ sysOne.now rowA)),
         { db := { rows := sysOne.db.rows.map
                     (fun x => if x.id == 1 then applyPatch ⟨some "cd", none, none⟩ sysOne.now x
                               else x),
                   nextId := sysOne.db.nextId },
           cache := cacheUser (invalidateUserCache c₁ 1)
                      (mapRowToUser (applyPatch ⟨some "cd", none, none⟩ sysOne.now rowA)),
           now := sysOne.now },
         tr₁ ++ [Ev.dbWrite, Ev.cDel (keyOf 1), Ev.cGet (keyOf 1), Ev.dbRead,
                 Ev.cSet (keyOf 1)]) ∧
      lookupKV (keyOf 1) (invalidateUserCache c₁ 1).store = none :=
  claim2_update_invalidates_then_rereads sysOne 1 rowA ⟨some "cd", none, none⟩
    wf_sysOne rfl (by simp [sysOne]) rfl rfl

/-- C10: with the cache reachable, a nonempty `update` on an existing row
leaves the cache entry `user:<id>` populated with the serialized post-update
row when it returns — the invalidation is immediately followed by a re-read
that re-caches the fresh row, so the entry is not absent. -/
theorem claim10_update_leaves_cache_fresh (st : Sys) (id : Nat) (r : Row)
    (input : UpdateUserInput)
    (hwf : Wf st) (hconn : st.cache.connected = true) (hr : r ∈ st.db.rows)
    (hid : r.id = id) (hne : emptyPatch input = false) :
    ∃ st₂ tr, UserService.update st id input =
        (.ok (mapRowToUser (applyPatch input st.now r)), st₂, tr) ∧
      lookupKV (keyOf id) st₂.cache.store =
        some (Stored.json (mapRowToUser (applyPatch input st.now r))) := by
  obtain ⟨c₁, tr₁, hcc, hnw, hspec⟩ := update_found_spec hwf hr hid hne
  refine ⟨_, _, hspec, ?_⟩
  have hc₂ : (invalidateUserCache c₁ id).connected = true :=
    (connected_invalidate ..).trans (hcc.trans hconn)
  rw [cacheUser_connected_eq _ hc₂]
  have hkey : keyOf (mapRowToUser (applyPatch input st.now r)).id = keyOf id := by
    rw [mapRowToUser_id, applyPatch_id, hid]
  dsimp only
  rw [hkey]
  exact lookupKV_insert_self ..

theorem claim10_witness :
    ∃ st₂ tr, UserService.update sysOne 1 ⟨some "cd", none, none⟩ =
        (.ok (mapRowToUser (applyPatch ⟨some "cd", none, none⟩ sysOne.now rowA)), st₂, tr) ∧
      lookupKV (keyOf 1) st₂.cache.store =
        some (Stored.json (mapRowToUser (applyPatch ⟨some "cd", none, none⟩ sysOne.now rowA))) :=
  claim10_update_leaves_cache_fresh sysOne 1 rowA ⟨some "cd", none, none⟩
    wf_sysOne rfl (by simp [sysOne]) rfl rfl

/-- C1, counterexample to the claim as stated: on a fresh system, the first
`GetById` after `Create` is NOT a cache miss that populates the cache — it
is already a cache hit. Its trace is exactly one cache probe: no store read
and no cache set occur, and the entry was already present when the call
began (Create populated it). -/
theorem claim1_counterexample :
    UserService.findById (UserService.create sysEmpty inpA).2.1 1 =
      (.ok (some ⟨1, "a@x.com", "ab", none, true, 0, 0⟩),
       (UserService.create sysEmpty inpA).2.1, [Ev.cGet (keyOf 1)]) ∧
    Ev.dbRead ∉ (UserService.findById (UserService.create sysEmpty inpA).2.1 1).2.2 ∧
    Ev.cSet (keyOf 1) ∉ (UserService.findById (UserService.create sysEmpty inpA).2.1 1).2.2 ∧
    lookupKV (keyOf 1) (UserService.create sysEmpty inpA).2.1.cache.store =
      some (Stored.json ⟨1, "a@x.com", "ab", none, true, 0, 0⟩) := by
  refine ⟨rfl, by decide, by decide, rfl⟩

/-- C1 (amended): with the cache reachable, both the first and the second
`GetById` after a successful `Create` return a User identical to the created
one, and both are cache hits performing no additional store read — `Create`
itself already populated the cache entry, so the first call is a hit, not a
miss. -/
theorem claim1_get_after_create (st : Sys) (input : CreateUserInput)
    (hwf : Wf st) (hconn : st.cache.connected = true)
    (u : User) (st₂ : Sys) (tr : List Ev)
    (hcr : UserService.create st input = (.ok u, st₂, tr)) :
    UserService.findById st₂ u.id = (.ok (some u), st₂, [Ev.cGet (keyOf u.id)]) ∧
    UserService.findById (UserService.findById st₂ u.id).2.1 u.id =
      (.ok (some u), st₂, [Ev.cGet (keyOf u.id)]) := by
  by_cases hex : ∃ r ∈ st.db.rows, r.email = input.email
  · obtain ⟨r, hr, he⟩ := hex
    cases hf : st.db.rows.find? (fun x => x.email == input.email) with
    | none =>
      have := List.find?_eq_none.mp hf r hr
      simp [he] at this
    | some r₀ =>
      rw [create_duplicate_spec hf] at hcr
      exact absurd (congrArg (fun x => x.1) hcr) (by simp)
  · push_neg at hex
    have hcs := create_fresh_spec hwf hex
    rw [hcs] at hcr
    injection hcr with h1 hrest
    injection hrest with h2 h3
    injection h1 with hu
    subst hu
    subst h2
    have hcy : (cacheUser st.cache (mapRowToUser (newRowOf st input))).connected = true :=
      (connected_cacheUser ..).trans hconn
    have hc : (cacheUser (cacheUser st.cache (mapRowToUser (newRowOf st input)))
        (mapRowToUser (newRowOf st input))).connected = true :=
      (connected_cacheUser ..).trans hcy
    have hl : lookupKV (keyOf (mapRowToUser (newRowOf st input)).id)
        (cacheUser (cacheUser st.cache (mapRowToUser (newRowOf st input)))
          (mapRowToUser (newRowOf st input))).store =
        some (Stored.json (mapRowToUser (newRowOf st input))) := by
      rw [cacheUser_connected_eq _ hcy]
      exact lookupKV_insert_self ..
    have hfi := @findById_cache_has
      { db := { rows := st.db.rows ++ [newRowOf st input],
                nextId := st.db.nextId + 1 },
        cache := cacheUser (cacheUser st.cache (mapRowToUser (newRowOf st input)))
                   (mapRowToUser (newRowOf st input)),
        now := st.now }
      (mapRowToUser (newRowOf st input)) hc hl
    refine ⟨hfi, ?_⟩
    rw [hfi]
    exact hfi

theorem claim1_witness :
    UserService.findById (UserService.create sysEmpty inpA).2.1
        (⟨1, "a@x.com", "ab", none, true, 0, 0⟩ : User).id =
      (.ok (some ⟨1, "a@x.com", "ab", none, true, 0, 0⟩),
       (UserService.create sysEmpty inpA).2.1,
       [Ev.cGet (keyOf (⟨1, "a@x.com", "ab", none, true, 0, 0⟩ : User).id)]) ∧
    UserService.findById
        (UserService.findById (UserService.create sysEmpty inpA).2.1
          (⟨1, "a@x.com", "ab", none, true, 0, 0⟩ : User).id).2.1
        (⟨1, "a@x.com", "ab", none, true, 0, 0⟩ : User).id =
      (.ok (some ⟨1, "a@x.com", "ab", none, true, 0, 0⟩),
       (UserService.create sysEmpty inpA).2.1,
       [Ev.cGet (keyOf (⟨1, "a@x.com", "ab", none, true, 0, 0⟩ : User).id)]) :=
  claim1_get_after_create sysEmpty inpA wf_sysEmpty rfl
    ⟨1, "a@x.com", "ab", none, true, 0, 0⟩ (UserService.create sysEmpty inpA).2.1
    (UserService.create sysEmpty inpA).2.2 rfl

/-- C9 counterexample to "returns absent exactly when the key does not
exist": storing the empty string (a legal `Set` of a string value) leaves
the key present, yet `get` returns absent — the `if (!value)` guard treats
the stored empty string as missing. -/
theorem claim9_counterexample :
    CacheManager.set ⟨true, []⟩ "k" (CacheValue.str "") 300 =
      .ok ⟨true, [("k", Stored.raw "")]⟩ ∧
    lookupKV "k" [("k", Stored.raw "")] = some (Stored.raw "") ∧
    CacheManager.get ⟨true, [("k", Stored.raw "")]⟩ "k" = .ok none :=
  ⟨rfl, rfl, rfl⟩

/-- C9 (amended): `CacheManager.get` fails with a typed cache failure (never
absent) when the connection is down; with a connection it returns absent
when the key does not exist or the stored string is empty, and otherwise
returns the deserialized stored value — a serialized User decodes to that
User, a raw string falls back to the string itself. -/
theorem claim9_cache_get_behavior (c : CacheState) (k : String) :
    (c.connected = false → CacheManager.get c k = .error CacheFailure.notConnected) ∧
    (c.connected = true → lookupKV k c.store = none → CacheManager.get c k = .ok none) ∧
    (∀ v, c.connected = true → lookupKV k c.store = some v → storedTruthy v = true →
      CacheManager.get c k = .ok (some (deserialize v))) ∧
    (∀ s, c.connected = true → lookupKV k c.store = some (Stored.raw s) → s.isEmpty = true →
      CacheManager.get c k = .ok none) ∧
    (∀ u, deserialize (Stored.json u) = CacheValue.user u) ∧
    (∀ s, deserialize (Stored.raw s) = CacheValue.str s) := by
  refine ⟨?_, ?_, ?_, ?_, fun u => rfl, fun s => rfl⟩
  · intro h
    simp [CacheManager.get, h]
  · intro hc hl
    simp [CacheManager.get, hc, hl]
  · intro v hc hl hv
    simp [CacheManager.get, hc, hl, hv]
  · intro s hc hl hs
    simp [CacheManager.get, hc, hl, storedTruthy, hs]

theorem claim9_witness :
    CacheManager.get ⟨false, [("k", Stored.raw "x")]⟩ "k" =
      .error CacheFailure.notConnected ∧
    CacheManager.get ⟨true, []⟩ "k" = .ok none ∧
    CacheManager.get ⟨true, [("k", Stored.json ⟨1, "e", "nm", none, true, 0, 0⟩)]⟩ "k" =
      .ok (some (CacheValue.user ⟨1, "e", "nm", none, true, 0, 0⟩)) :=
  ⟨(claim9_cache_get_behavior ⟨false, [("k", Stored.raw "x")]⟩ "k").1 rfl,
   (claim9_cache_get_behavior ⟨true, []⟩ "k").2.1 rfl rfl,
   (claim9_cache_get_behavior ⟨true, [("k", Stored.json ⟨1, "e", "nm", none, true, 0, 0⟩)]⟩
     "k").2.2.1 (Stored.json ⟨1, "e", "nm", none, true, 0, 0⟩) rfl rfl rfl⟩

/-- C7 counterexample to "search as case-insensitive substring": with
`search = "_"` the query condition is `LIKE '%_%'`, in which `_` is a
wildcard, so a row whose name and email do not contain `_` as a substring
is nevertheless returned. -/
theorem claim7_counterexample :
    (UserService.findMany sysOne ⟨none, none, none, some "_"⟩ ⟨1, 10⟩).1 =
      .ok ⟨[mapRowToUser rowA], 1⟩ ∧
    specSubstrCI "_" rowA.name = false ∧
    specSubstrCI "_" rowA.email = false ∧
    (mapRowToUser rowA).name = rowA.name ∧ (mapRowToUser rowA).email = rowA.email :=
  ⟨rfl, rfl, rfl, rfl, rfl⟩

/-- C7 (amended): `findMany` returns only rows matching the conjunction of
the present filters — `isActive` exact, `ageMin`/`ageMax` inclusive, and
`search` as a case-insensitive SQL `LIKE '%search%'` match, which coincides
with substring matching when the term has no wildcard characters — ordered
newest-first by creation time, with `total` the full matching count
(independent of `limit`), the page sliced at offset `(page-1)*limit`, and
pagination metadata `totalPages = ceil(total/limit)` (characterized by
`total ≤ totalPages*limit < total+limit`), `hasNext = page < totalPages`,
`hasPrev = page > 1`. -/
theorem claim7_findMany_spec (st : Sys) (f : UserFilters) (p : PaginationParams)
    (_hpage : 1 ≤ p.page) (hlimit : 1 ≤ p.limit) :
    ∃ users total,
      UserService.findMany st f p =
        (.ok ⟨users, total⟩, st, [Ev.dbRead, Ev.dbRead]) ∧
      total = (st.db.rows.filter (rowMatches f)).length ∧
      users = (((sortByCreatedDesc (st.db.rows.filter (rowMatches f))).drop
                ((p.page - 1) * p.limit)).take p.limit).map mapRowToUser ∧
      (∀ u ∈ users, ∃ r ∈ st.db.rows, rowMatches f r = true ∧ u = mapRowToUser r) ∧
      users.Pairwise (fun a b => b.createdAt ≤ a.createdAt) ∧
      (∀ s, f.search = some s → s.isEmpty = false → noWild s →
        ∀ u ∈ users, specSubstrCI s u.name = true ∨ specSubstrCI s u.email = true) ∧
      (ResponseHandler.paginated p.page p.limit total).page = p.page ∧
      (ResponseHandler.paginated p.page p.limit total).limit = p.limit ∧
      (ResponseHandler.paginated p.page p.limit total).total = total ∧
      total ≤ (ResponseHandler.paginated p.page p.limit total).totalPages * p.limit ∧
      (ResponseHandler.paginated p.page p.limit total).totalPages * p.limit
        < total + p.limit ∧
      (ResponseHandler.paginated p.page p.limit total).hasNext
        = decide (p.page < (ResponseHandler.paginated p.page p.limit total).totalPages) ∧
      (ResponseHandler.paginated p.page p.limit total).hasPrev = decide (1 < p.page) := by
  refine ⟨_, _, rfl, rfl, rfl, ?_, ?_, ?_, rfl, rfl, rfl,
    (totalPages_is_ceil _ _ hlimit).1, (totalPages_is_ceil _ _ hlimit).2, rfl, rfl⟩
  · intro u hu
    obtain ⟨x, hx, rfl⟩ := List.mem_map.mp hu
    have hx₁ : x ∈ sortByCreatedDesc (st.db.rows.filter (rowMatches f)) :=
      List.mem_of_mem_drop (List.mem_of_mem_take hx)
    have hx₂ := (sortByCreatedDesc_perm _).mem_iff.mp hx₁
    obtain ⟨hmem, hmatch⟩ := List.mem_filter.mp hx₂
    exact ⟨x, hmem, hmatch, rfl⟩
  · have hs := sortByCreatedDesc_sorted (st.db.rows.filter (rowMatches f))
    have hsub : (((sortByCreatedDesc (st.db.rows.filter (rowMatches f))).drop
        ((p.page - 1) * p.limit)).take p.limit).Sublist
        (sortByCreatedDesc (st.db.rows.filter (rowMatches f))) :=
      (List.take_sublist ..).trans (List.drop_sublist ..)
    exact List.pairwise_map.mpr (List.Pairwise.sublist hsub hs)
  · intro s hsrch hse hw u hu
    obtain ⟨x, hx, rfl⟩ := List.mem_map.mp hu
    have hx₁ : x ∈ sortByCreatedDesc (st.db.rows.filter (rowMatches f)) :=
      List.mem_of_mem_drop (List.mem_of_mem_take hx)
    have hx₂ := (sortByCreatedDesc_perm _).mem_iff.mp hx₁
    obtain ⟨hmem, hmatch⟩ := List.mem_filter.mp hx₂
    simp only [rowMatches, hsrch, hse, Bool.and_eq_true, Bool.false_eq_true, if_false] at hmatch
    obtain ⟨-, hD⟩ := hmatch
    rw [Bool.or_eq_true] at hD
    rcases hD with h | h
    · exact Or.inl (specSubstrCI_of_likeCI hw h)
    · exact Or.inr (specSubstrCI_of_likeCI hw h)

theorem claim7_witness :
    ∃ users total,
      UserService.findMany sysB ⟨some true, some 18, some 65, none⟩ ⟨1, 10⟩ =
        (.ok ⟨users, total⟩, sysB, [Ev.dbRead, Ev.dbRead]) ∧
      total = (sysB.db.rows.filter (rowMatches ⟨some true, some 18, some 65, none⟩)).length ∧
      users = (((sortByCreatedDesc (sysB.db.rows.filter
                  (rowMatches ⟨some true, some 18, some 65, none⟩))).drop
                ((1 - 1) * 10)).take 10).map mapRowToUser ∧
      (∀ u ∈ users, ∃ r ∈ sysB.db.rows,
        rowMatches ⟨some true, some 18, some 65, none⟩ r = true ∧ u = mapRowToUser r) ∧
      users.Pairwise (fun a b => b.createdAt ≤ a.createdAt) ∧
      (∀ s, (⟨some true, some 18, some 65, none⟩ : UserFilters).search = some s →
        s.isEmpty = false → noWild s →
        ∀ u ∈ users, specSubstrCI s u.name = true ∨ specSubstrCI s u.email = true) ∧
      (ResponseHandler.paginated 1 10 total).page = 1 ∧
      (ResponseHandler.paginated 1 10 total).limit = 10 ∧
      (ResponseHandler.paginated 1 10 total).total = total ∧
      total ≤ (ResponseHandler.paginated 1 10 total).totalPages * 10 ∧
      (ResponseHandler.paginated 1 10 total).totalPages * 10 < total + 10 ∧
      (ResponseHandler.paginated 1 10 total).hasNext
        = decide (1 < (ResponseHandler.paginated 1 10 total).totalPages) ∧
      (ResponseHandler.paginated 1 10 total).hasPrev = decide (1 < 1) :=
  claim7_findMany_spec sysB ⟨some true, some 18, some 65, none⟩ ⟨1, 10⟩
    (by decide) (by decide)

/-! ## Inert-cache run lemmas for C8

A cache that fails every call (disconnected) and a cache that misses every
call (connected and empty) drive the service through the same store
operations; these lemmas compute the result and the final table for either
kind of "inert" cache. -/

theorem findById_down_found {st : Sys} {id : Nat} {r : Row}
    (hc : st.cache.connected = false)
    (hf : st.db.rows.find? (fun x => x.id == id) = some r) :
    findById st id = (.ok (some (mapRowToUser r)), st,
      [Ev.cGet (keyOf id), Ev.dbRead, Ev.cSet (keyOf id)]) := by
  rw [findById_miss (Or.inr hc) hf, cacheUser_down _ hc]

theorem findById_empty_found {st : Sys} {id : Nat} {r : Row}
    (hc : st.cache = ⟨true, []⟩)
    (hf : st.db.rows.find? (fun x => x.id == id) = some r) :
    findById st id = (.ok (some (mapRowToUser r)),
      { st with cache := ⟨true, [(keyOf r.id, Stored.json (mapRowToUser r))]⟩ },
      [Ev.cGet (keyOf id), Ev.dbRead, Ev.cSet (keyOf id)]) := by
  have hlk : lookupKV (keyOf id) st.cache.store = none := by
    rw [hc]
    rfl
  rw [findById_miss (Or.inl hlk) hf, hc]
  simp [cacheUser, CacheManager.set, insertKV, removeKV, serialize, mapRowToUser_id]

theorem findById_down_notfound {st : Sys} {id : Nat}
    (hc : st.cache.connected = false)
    (hf : st.db.rows.find? (fun x => x.id == id) = none) :
    findById st id = (.ok none, st, [Ev.cGet (keyOf id), Ev.dbRead]) := by
  simp [findById, CacheManager.get, hc, hf]

theorem findById_empty_notfound {st : Sys} {id : Nat}
    (hc : st.cache = ⟨true, []⟩)
    (hf : st.db.rows.find? (fun x => x.id == id) = none) :
    findById st id = (.ok none, st, [Ev.cGet (keyOf id), Ev.dbRead]) := by
  have hcc : st.cache.connected = true := by rw [hc]
  have hlk : lookupKV (keyOf id) st.cache.store = none := by
    rw [hc]
    rfl
  simp [findById, CacheManager.get, hcc, hlk, hf]

theorem findById_inert {st : Sys} {id : Nat}
    (h : st.cache.connected = false ∨ st.cache = ⟨true, []⟩) :
    (findById st id).1 = .ok ((st.db.rows.find? (fun x => x.id == id)).map mapRowToUser) ∧
    (findById st id).2.1.db = st.db := by
  rcases h with hc | hc
  · rw [findById_down_full hc]
    exact ⟨rfl, rfl⟩
  · rw [findById_empty_full hc]
    refine ⟨rfl, ?_⟩
    cases hf : st.db.rows.find? (fun x => x.id == id) <;> simp [hf]

theorem create_inert {st : Sys} {input : CreateUserInput}
    (h : st.cache.connected = false ∨ st.cache = ⟨true, []⟩) :
    (UserService.create st input).1 =
      (match st.db.rows.find? (fun x => x.email == input.email) with
       | some _ => .error (.alreadyExists "User" "email" input.email)
       | none =>
         match (st.db.rows ++ [newRowOf st input]).find? (fun x => x.id == st.db.nextId) with
         | some r => .ok (mapRowToUser r)
         | none => .error (.databaseError "Failed to retrieve created user")) ∧
    (UserService.create st input).2.1.db =
      (match st.db.rows.find? (fun x => x.email == input.email) with
       | some _ => st.db
       | none => ⟨st.db.rows ++ [newRowOf st input], st.db.nextId + 1⟩) := by
  cases hfe : st.db.rows.find? (fun x => x.email == input.email) with
  | some r₀ =>
    rw [create_duplicate_spec hfe]
    exact ⟨rfl, rfl⟩
  | none =>
    rcases h with hc | hc
    · have hA := @findById_down_full
        ⟨⟨st.db.rows ++ [newRowOf st input], st.db.nextId + 1⟩, st.cache, st.now⟩
        st.db.nextId hc
      cases hfr : (st.db.rows ++ [newRowOf st input]).find? (fun x => x.id == st.db.nextId) with
      | some r =>
        constructor <;> simp [UserService.create, findByEmail, hfe, newRowOf_id, hA, hfr]
      | none =>
        constructor <;> simp [UserService.create, findByEmail, hfe, newRowOf_id, hA, hfr]
    · have hA := @findById_empty_full
        ⟨⟨st.db.rows ++ [newRowOf st input], st.db.nextId + 1⟩, st.cache, st.now⟩
        st.db.nextId hc
      cases hfr : (st.db.rows ++ [newRowOf st input]).find? (fun x => x.id == st.db.nextId) with
      | some r =>
        constructor <;> simp [UserService.create, findByEmail, hfe, newRowOf_id, hA, hfr]
      | none =>
        constructor <;> simp [UserService.create, findByEmail, hfe, newRowOf_id, hA, hfr]

theorem update_inert {st : Sys} {id : Nat} {input : UpdateUserInput}
    (h : st.cache.connected = false ∨ st.cache = ⟨true, []⟩) :
    (UserService.update st id input).1 =
      (match st.db.rows.find? (fun x => x.id == id) with
       | none => .error (.notFound "User" id)
       | some r =>
         if emptyPatch input then .ok (mapRowToUser r)
         else
           match (st.db.rows.map
               (fun x => if x.id == id then applyPatch input st.now x else x)).find?
               (fun x => x.id == id) with
           | some r₂ => .ok (mapRowToUser r₂)
           | none => .error (.databaseError "Failed to retrieve updated user")) ∧
    (UserService.update st id input).2.1.db =
      (match st.db.rows.find? (fun x => x.id == id) with
       | none => st.db
       | some _ =>
         if emptyPatch input then st.db
         else ⟨st.db.rows.map (fun x => if x.id == id then applyPatch input st.now x else x),
               st.db.nextId⟩) := by
  cases hfs : st.db.rows.find? (fun x => x.id == id) with
  | none =>
    rcases h with hc | hc
    · have hA := @findById_down_full st id hc
      constructor <;> simp [UserService.update, hA, hfs]
    · have hA := @findById_empty_full st id hc
      constructor <;> simp [UserService.update, hA, hfs]
  | some r =>
    have hrid : r.id = id := by simpa using List.find?_some hfs
    cases hep : emptyPatch input with
    | true =>
      rcases h with hc | hc
      · have hA := @findById_down_full st id hc
        constructor <;> simp [UserService.update, hA, hfs, hep]
      · have hA := @findById_empty_full st id hc
        constructor <;> simp [UserService.update, hA, hfs, hep]
    | false =>
      rcases h with hc | hc
      · have hA := findById_down_found hc hfs
        cases hfr : (st.db.rows.map
            (fun x => if x.id == id then applyPatch input st.now x else x)).find?
            (fun x => x.id == id) with
        | some r₂ =>
          have hB := @findById_down_found
            ⟨⟨st.db.rows.map
                (fun x => if x.id == id then applyPatch input st.now x else x),
              st.db.nextId⟩, invalidateUserCache st.cache id, st.now⟩
            id r₂ ((connected_invalidate ..).trans hc) hfr
          have hU : (UserService.update st id input).1 = .ok (mapRowToUser r₂) ∧
              (UserService.update st id input).2.1.db =
                ⟨st.db.rows.map (fun x => if x.id == id then applyPatch input st.now x else x),
                 st.db.nextId⟩ := by
            unfold UserService.update
            rw [hA]
            dsimp only
            rw [hep]
            simp only [Bool.false_eq_true, if_false]
            rw [hB]
            exact ⟨rfl, rfl⟩
          rw [hU.1, hU.2]
          simp [hfs, hep, hfr]
        | none =>
          have hB := @findById_down_notfound
            ⟨⟨st.db.rows.map
                (fun x => if x.id == id then applyPatch input st.now x else x),
              st.db.nextId⟩, invalidateUserCache st.cache id, st.now⟩
            id ((connected_invalidate ..).trans hc) hfr
          have hU : (UserService.update st id input).1 =
              .error (.databaseError "Failed to retrieve updated user") ∧
              (UserService.update st id input).2.1.db =
                ⟨st.db.rows.map (fun x => if x.id == id then applyPatch input st.now x else x),
                 st.db.nextId⟩ := by
            unfold UserService.update
            rw [hA]
            dsimp only
            rw [hep]
            simp only [Bool.false_eq_true, if_false]
            rw [hB]
            exact ⟨rfl, rfl⟩
          rw [hU.1, hU.2]
          simp [hfs, hep, hfr]
      · have hA := findById_empty_found hc hfs
        have hrm : invalidateUserCache
            (⟨true, [(keyOf r.id, Stored.json (mapRowToUser r))]⟩ : CacheState) id =
            ⟨true, []⟩ := by
          rw [hrid]
          simp [invalidateUserCache, CacheManager.del, removeKV]
        cases hfr : (st.db.rows.map
            (fun x => if x.id == id then applyPatch input st.now x else x)).find?
            (fun x => x.id == id) with
        | some r₂ =>
          have hB := @findById_empty_found
            ⟨⟨st.db.rows.map
                (fun x => if x.id == id then applyPatch input st.now x else x),
              st.db.nextId⟩, ⟨true, []⟩, st.now⟩
            id r₂ rfl hfr
          have hU : (UserService.update st id input).1 = .ok (mapRowToUser r₂) ∧
              (UserService.update st id input).2.1.db =
                ⟨st.db.rows.map (fun x => if x.id == id then applyPatch input st.now x else x),
                 st.db.nextId⟩ := by
            unfold UserService.update
            rw [hA]
            dsimp only
            rw [hep]
            simp only [Bool.false_eq_true, if_false]
            rw [hrm, hB]
            exact ⟨rfl, rfl⟩
          rw [hU.1, hU.2]
          simp [hfs, hep, hfr]
        | none =>
          have hB := @findById_empty_notfound
            ⟨⟨st.db.rows.map
                (fun x => if x.id == id then applyPatch input st.now x else x),
              st.db.nextId⟩, ⟨true, []⟩, st.now⟩
            id rfl hfr
          have hU : (UserService.update st id input).1 =
              .error (.databaseError "Failed to retrieve updated user") ∧
              (UserService.update st id input).2.1.db =
                ⟨st.db.rows.map (fun x => if x.id == id then applyPatch input st.now x else x),
                 st.db.nextId⟩ := by
            unfold UserService.update
            rw [hA]
            dsimp only
            rw [hep]
            simp only [Bool.false_eq_true, if_false]
            rw [hrm, hB]
            exact ⟨rfl, rfl⟩
          rw [hU.1, hU.2]
          simp [hfs, hep, hfr]

theorem delete_inert {st : Sys} {id : Nat}
    (h : st.cache.connected = false ∨ st.cache = ⟨true, []⟩) :
    (UserService.delete st id).1 =
      (match st.db.rows.find? (fun x => x.id == id) with
       | none => .error (.notFound "User" id)
       | some _ => .ok ()) ∧
    (UserService.delete st id).2.1.db =
      (match st.db.rows.find? (fun x => x.id == id) with
       | none => st.db
       | some _ => ⟨st.db.rows.filter (fun x => !(x.id == id)), st.db.nextId⟩) := by
  cases hfs : st.db.rows.find? (fun x => x.id == id) with
  | none =>
    rcases h with hc | hc
    · have hA := @findById_down_full st id hc
      constructor <;> simp [UserService.delete, hA, hfs]
    · have hA := @findById_empty_full st id hc
      constructor <;> simp [UserService.delete, hA, hfs]
  | some r =>
    rcases h with hc | hc
    · have hA := @findById_down_full st id hc
      constructor <;> simp [UserService.delete, hA, hfs]
    · have hA := @findById_empty_full st id hc
      constructor <;> simp [UserService.delete, hA, hfs]

/-- C8: a cache failure is never fatal. With the cache disconnected — every
cache call raising a typed failure that the service catches — each service
operation returns the same outcome and leaves the same table as the same
run against a connected empty cache (the all-miss "normal" run): reads fall
through to the store and write-path population and invalidation failures
are swallowed. No operation surfaces a cache error. -/
theorem claim8_cache_failure_not_fatal (st : Sys) (id : Nat) (input : CreateUserInput)
    (patch : UpdateUserInput) (f : UserFilters) (p : PaginationParams)
    (hdown : st.cache.connected = false) :
    ((UserService.findById st id).1
        = (UserService.findById { st with cache := ⟨true, []⟩ } id).1 ∧
     (UserService.findById st id).2.1.db
        = (UserService.findById { st with cache := ⟨true, []⟩ } id).2.1.db ∧
     (UserService.findById st id).1 ≠ .error .cacheError) ∧
    ((UserService.create st input).1
        = (UserService.create { st with cache := ⟨true, []⟩ } input).1 ∧
     (UserService.create st input).2.1.db
        = (UserService.create { st with cache := ⟨true, []⟩ } input).2.1.db ∧
     (UserService.create st input).1 ≠ .error .cacheError) ∧
    ((UserService.update st id patch).1
        = (UserService.update { st with cache := ⟨true, []⟩ } id patch).1 ∧
     (UserService.update st id patch).2.1.db
        = (UserService.update { st with cache := ⟨true, []⟩ } id patch).2.1.db ∧
     (UserService.update st id patch).1 ≠ .error .cacheError) ∧
    ((UserService.delete st id).1
        = (UserService.delete { st with cache := ⟨true, []⟩ } id).1 ∧
     (UserService.delete st id).2.1.db
        = (UserService.delete { st with cache := ⟨true, []⟩ } id).2.1.db ∧
     (UserService.delete st id).1 ≠ .error .cacheError) ∧
    ((UserService.findMany st f p).1
        = (UserService.findMany { st with cache := ⟨true, []⟩ } f p).1 ∧
     (UserService.findMany st f p).2.1.db
        = (UserService.findMany { st with cache := ⟨true, []⟩ } f p).2.1.db ∧
     (UserService.findMany st f p).1 ≠ .error .cacheError) := by
  refine ⟨⟨?_, ?_, ?_⟩, ⟨?_, ?_, ?_⟩, ⟨?_, ?_, ?_⟩, ⟨?_, ?_, ?_⟩, rfl, rfl, ?_⟩
  · exact ((findById_inert (Or.inl hdown)).1).trans
      ((@findById_inert { st with cache := ⟨true, []⟩ } id (Or.inr rfl)).1).symm
  · exact ((findById_inert (Or.inl hdown)).2).trans
      ((@findById_inert { st with cache := ⟨true, []⟩ } id (Or.inr rfl)).2).symm
  · rw [(findById_inert (Or.inl hdown)).1]
    simp
  · exact ((create_inert (Or.inl hdown)).1).trans
      ((@create_inert { st with cache := ⟨true, []⟩ } input (Or.inr rfl)).1).symm
  · exact ((create_inert (Or.inl hdown)).2).trans
      ((@create_inert { st with cache := ⟨true, []⟩ } input (Or.inr rfl)).2).symm
  · rw [(create_inert (Or.inl hdown)).1]
    cases hfe : st.db.rows.find? (fun x => x.email == input.email) with
    | some r₀ => simp [hfe]
    | none =>
      cases hfr : (st.db.rows ++ [newRowOf st input]).find? (fun x => x.id == st.db.nextId) with
      | some r => simp [hfe, hfr]
      | none => simp [hfe, hfr]
  · exact ((update_inert (Or.inl hdown)).1).trans
      ((@update_inert { st with cache := ⟨true, []⟩ } id patch (Or.inr rfl)).1).symm
  · exact ((update_inert (Or.inl hdown)).2).trans
      ((@update_inert { st with cache := ⟨true, []⟩ } id patch (Or.inr rfl)).2).symm
  · rw [(update_inert (Or.inl hdown)).1]
    cases hfs : st.db.rows.find? (fun x => x.id == id) with
    | none => simp [hfs]
    | some r =>
      cases hep : emptyPatch patch with
      | true => simp [hfs, hep]
      | false =>
        cases hfr : (st.db.rows.map
            (fun x => if x.id == id then applyPatch patch st.now x else x)).find?
            (fun x => x.id == id) with
        | some r₂ => simp [hfs, hep, hfr]
        | none => simp [hfs, hep, hfr]
  · exact ((delete_inert (Or.inl hdown)).1).trans
      ((@delete_inert { st with cache := ⟨true, []⟩ } id (Or.inr rfl)).1).symm
  · exact ((delete_inert (Or.inl hdown)).2).trans
      ((@delete_inert { st with cache := ⟨true, []⟩ } id (Or.inr rfl)).2).symm
  · rw [(delete_inert (Or.inl hdown)).1]
    cases hfs : st.db.rows.find? (fun x => x.id == id) <;> simp [hfs]
  · simp [UserService.findMany]

theorem claim8_witness :
    ((UserService.findById sysDown 1).1
        = (UserService.findById { sysDown with cache := ⟨true, []⟩ } 1).1 ∧
     (UserService.findById sysDown 1).2.1.db
        = (UserService.findById { sysDown with cache := ⟨true, []⟩ } 1).2.1.db ∧
     (UserService.findById sysDown 1).1 ≠ .error .cacheError) ∧
    ((UserService.create sysDown inpA).1
        = (UserService.create { sysDown with cache := ⟨true, []⟩ } inpA).1 ∧
     (UserService.create sysDown inpA).2.1.db
        = (UserService.create { sysDown with cache := ⟨true, []⟩ } inpA).2.1.db ∧
     (UserService.create sysDown inpA).1 ≠ .error .cacheError) ∧
    ((UserService.update sysDown 1 ⟨some "cd", none, none⟩).1
        = (UserService.update { sysDown with cache := ⟨true, []⟩ } 1 ⟨some "cd", none, none⟩).1 ∧
     (UserService.update sysDown 1 ⟨some "cd", none, none⟩).2.1.db
        = (UserService.update { sysDown with cache := ⟨true, []⟩ } 1
            ⟨some "cd", none, none⟩).2.1.db ∧
     (UserService.update sysDown 1 ⟨some "cd", none, none⟩).1 ≠ .error .cacheError) ∧
    ((UserService.delete sysDown 1).1
        = (UserService.delete { sysDown with cache := ⟨true, []⟩ } 1).1 ∧
     (UserService.delete sysDown 1).2.1.db
        = (UserService.delete { sysDown with cache := ⟨true, []⟩ } 1).2.1.db ∧
     (UserService.delete sysDown 1).1 ≠ .error .cacheError) ∧
    ((UserService.findMany sysDown ⟨none, none, none, none⟩ ⟨1, 10⟩).1
        = (UserService.findMany { sysDown with cache := ⟨true, []⟩ }
            ⟨none, none, none, none⟩ ⟨1, 10⟩).1 ∧
     (UserService.findMany sysDown ⟨none, none, none, none⟩ ⟨1, 10⟩).2.1.db
        = (UserService.findMany { sysDown with cache := ⟨true, []⟩ }
            ⟨none, none, none, none⟩ ⟨1, 10⟩).2.1.db ∧
     (UserService.findMany sysDown ⟨none, none, none, none⟩ ⟨1, 10⟩).1
        ≠ .error .cacheError) :=
  claim8_cache_failure_not_fatal sysDown 1 inpA ⟨some "cd", none, none⟩
    ⟨none, none, none, none⟩ ⟨1, 10⟩ rfl

end DevDummySvc
